import Mathlib

/-!
Verification of the sshchat interactive terminal engine.

The definitions below are shallow embeddings of the Go source:
- `calcLoop` / `calculateMessageLines` embed `calculateMessageLines`
  (utils, the renderer's line-wrap helper).  The Go `for` loop is made
  fuel-indexed so that non-termination of the source loop is visible as
  `none` for every fuel.
- `processRune` / `processAll` embed the per-rune `switch` of the input
  watcher goroutine started in `NewClient`.
- `emitClose` / `clientClose` embed `Client.emitClose` and `Client.Close`
  together with the shared `sync.Once`.
- `debounceRun` embeds `Client.TrySendRender`'s single debounce timer as a
  discrete-event run over request times.
- `GetIPInfo` / `sessionHandler` embed the geo lookup and the session
  handler of `main.go`.
-/

namespace SshChat

/-- One step state of the Go loop in `calculateMessageLines`:
`rem` is `content[contentIdx:]`, `cur` is `currentLine`, `lw` is
`lineWidth`.  Go's loop `for contentIdx < len(content)` is modelled with
explicit fuel; `none` means the fuel ran out before the loop exited.
Returns the flushed `lines` together with the final `currentLine`. -/
def calcLoop (w : Int) (fuel : Nat) (rem cur : List Char) (lw : Int) :
    Option (List (List Char) × List Char) :=
  match fuel with
  | 0 => if rem.isEmpty then some ([], cur) else none
  | fuel + 1 =>
    match rem with
    | [] => some ([], cur)
    | _ :: _ =>
      let spaceLeft : Int := lw - cur.length
      if (rem.length : Int) ≤ spaceLeft then
        some ([], cur ++ rem)
      else if 0 < spaceLeft then
        (calcLoop w fuel (rem.drop spaceLeft.toNat) [] w).map
          (fun p => ((cur ++ rem.take spaceLeft.toNat) :: p.1, p.2))
      else
        (calcLoop w fuel rem [] w).map (fun p => (cur :: p.1, p.2))

/-- Embeds Go `calculateMessageLines(header, content, w)`: the header is
placed into `currentLine` and its rune count subtracted from `lineWidth`
(exactly as the source does, including the double accounting), the loop
runs, and a non-empty final `currentLine` is flushed. -/
def calculateMessageLines (header content : List Char) (w : Int)
    (fuel : Nat) : Option (List (List Char)) :=
  let cur := header
  let lw := if header.length > 0 then w - header.length else w
  (calcLoop w fuel content cur lw).map
    (fun p => p.1 ++ if p.2.isEmpty then [] else [p.2])

/-- A chat message, as stored in `Client.messages` by the input watcher.
Timestamps are abstracted to a `Nat` clock value. -/
structure Message where
  timestamp : Nat
  username : String
  content : List Char
  deriving DecidableEq, Repr

/-- The mutex-guarded state the input watcher mutates: the bounded input
buffer (`Input.Buffer` with `Input.MaxLen`) and the message log. -/
structure InputState where
  buffer : List Char
  maxLen : Nat
  messages : List Message
  deriving DecidableEq, Repr

/-- Signals the input watcher may emit after handling one rune:
a send on `EnterCh`, a call to `TrySendRender`, or `emitClose`. -/
inductive Effect where
  | enterSig
  | renderReq
  | closeReq
  deriving DecidableEq, Repr

/-- Embeds the `switch r` of the input watcher goroutine in `NewClient`:
CR/LF commit the buffer as a message, 0x03/0x04 close, 0x08/0x7f erase,
other control runes (except tab) are discarded, and the default case
appends when the buffer is below `MaxLen` and silently drops otherwise. -/
def processRune (u : String) (now : Nat) (st : InputState) (r : Char) :
    InputState × List Effect :=
  if r.toNat = 13 ∨ r.toNat = 10 then
    let st' :=
      if 0 < st.buffer.length then
        { st with
          messages := st.messages ++ [⟨now, u, st.buffer⟩]
          buffer := [] }
      else st
    (st', [Effect.enterSig, Effect.renderReq])
  else if r.toNat = 3 ∨ r.toNat = 4 then
    (st, [Effect.closeReq])
  else if r.toNat = 8 ∨ r.toNat = 127 then
    if 0 < st.buffer.length then
      ({ st with buffer := st.buffer.dropLast }, [Effect.renderReq])
    else
      (st, [])
  else if r.toNat < 32 ∧ r.toNat ≠ 9 then
    (st, [])
  else if st.buffer.length < st.maxLen then
    ({ st with buffer := st.buffer ++ [r] }, [Effect.renderReq])
  else
    (st, [])

/-- Folds `processRune` over a rune sequence (the watcher's read loop,
with a fixed clock value for the committed timestamps). -/
def processAll (u : String) (now : Nat) (st : InputState) :
    List Char → InputState
  | [] => st
  | r :: rs => processAll u now (processRune u now st r).1 rs

/-- A rune that reaches the append branch of the watcher's `default`
case: none of the specially handled runes, and not a non-tab control
character. -/
def isPrintable (r : Char) : Bool :=
  decide (¬(r.toNat = 13 ∨ r.toNat = 10 ∨ r.toNat = 3 ∨ r.toNat = 4 ∨
    r.toNat = 8 ∨ r.toNat = 127) ∧ (32 ≤ r.toNat ∨ r.toNat = 9))

/-- Observable effects of the close path: `onceUsed` is the state of the
shared `sync.Once`, `sessionCloseCount` counts executions of
`c.session.Close()`, `channelCloseCount` counts executions of the
channel-closing block in `Client.Close`, and `closeSignalSent` records
the `trySend(c.CloseCh)`. -/
structure CloseState where
  onceUsed : Bool
  sessionCloseCount : Nat
  channelCloseCount : Nat
  closeSignalSent : Bool
  deriving DecidableEq, Repr

def initCloseState : CloseState :=
  { onceUsed := false
    sessionCloseCount := 0
    channelCloseCount := 0
    closeSignalSent := false }

/-- `sync.Once.Do`: runs `body` only if this `Once` was never used,
regardless of which call site supplies the body. -/
def onceDo (st : CloseState) (body : CloseState → CloseState) :
    CloseState :=
  if st.onceUsed then st else body { st with onceUsed := true }

/-- Embeds `Client.emitClose`: under the shared `c.once`, closes the
session transport and try-sends on `CloseCh` (the delayed `cancel` has no
observable effect on these counters). -/
def emitClose (st : CloseState) : CloseState :=
  onceDo st (fun s =>
    { s with
      sessionCloseCount := s.sessionCloseCount + 1
      closeSignalSent := true })

/-- Embeds `Client.Close`: first `emitClose`, then `wg.Wait`, then a
second `c.once.Do` whose body closes the four signal channels. -/
def clientClose (st : CloseState) : CloseState :=
  onceDo (emitClose st) (fun s =>
    { s with channelCloseCount := s.channelCloseCount + 1 })

/-- The two entry points into the close path. -/
inductive CloseTrigger where
  | viaEmit
  | viaClose
  deriving DecidableEq, Repr

/-- Runs a sequence of close-path invocations in order. -/
def runTriggers (st : CloseState) : List CloseTrigger → CloseState
  | [] => st
  | CloseTrigger.viaEmit :: ts => runTriggers (emitClose st) ts
  | CloseTrigger.viaClose :: ts => runTriggers (clientClose st) ts

/-- `renderDebounceDur` of `NewClient` (in milliseconds). -/
def renderDebounceDur : Nat := 50

/-- Discrete-event run of the debounce timer in `Client.TrySendRender`.
The first argument list is the request times in order; the second is the
pending timer deadline (`none` when `renderDebounceTimer` is nil).  A
request finding no pending timer schedules a fire at `t + d`
(`time.AfterFunc`); a request finding one whose deadline is still in the
future resets it (`Timer.Reset`); a pending deadline at or before the
next request fires first, delivering a render signal and clearing the
timer.  Returns the times at which render signals are delivered. -/
def debounceRun (d : Nat) : List Nat → Option Nat → List Nat
  | [], none => []
  | [], some dl => [dl]
  | t :: ts, none => debounceRun d ts (some (t + d))
  | t :: ts, some dl =>
    if dl ≤ t then dl :: debounceRun d ts (some (t + d))
    else debounceRun d ts (some (t + d))

/-- `utils.IpInfo`. -/
structure IpInfo where
  Country : String
  City : String
  Timezone : String
  Isp : String
  IsAnonymousIP : Bool
  deriving DecidableEq, Repr

/-- Abstraction of the `geoip2.Reader` used by `GetIPInfo`: each lookup
either yields a record (`some`, carrying the fields the Go code reads)
or the nil pointer (`none`).  For the country lookup the carried string
is `country.Country.IsoCode`, possibly empty. -/
structure GeoReader where
  countryIso : Option String
  cityInfo : Option (String × String)
  ispName : Option String
  anonFlags : Option (Bool × Bool × Bool)
  deriving DecidableEq, Repr

/-- Embeds `utils.GetIPInfo`.  The country closure executes
`println(country.Country.IsoCode)` BEFORE its nil check, dereferencing
the record returned by `db.Country`: when that lookup yields the nil
pointer the call panics (`Except.error ()`) and never reaches the
`"ZZ"` fallback, which is live only for a present record with an empty
IsoCode.  With a country record present the function ends in an
unconditional `return &IpInfo{...}` — a non-nil pointer (`some`) —
with the `"Unknown"`/`"UTC+0"`/`false` fallbacks for nil city, ISP and
anonymous-IP lookups, whose closures do check nil before
dereferencing. -/
def GetIPInfo (_ip : String) (db : GeoReader) :
    Except Unit (Option IpInfo) :=
  match db.countryIso with
  | none => Except.error ()
  | some iso =>
    let country := if iso ≠ "" then iso else "ZZ"
    let cityTz :=
      match db.cityInfo with
      | some p => p
      | none => ("Unknown", "UTC+0")
    let isp :=
      match db.ispName with
      | some i => i
      | none => "Unknown"
    let anon :=
      match db.anonFlags with
      | some f => f.1 || f.2.1 || f.2.2
      | none => false
    Except.ok (some
      { Country := country
        City := cityTz.1
        Timezone := cityTz.2
        Isp := isp
        IsAnonymousIP := anon })

/-- Observable trace of one `sessionHandler` run: strings written to the
session, the argument of `s.Exit` if called, the number of `s.Close()`
calls, whether the `geoStatus == nil` force-disconnect branch ran,
whether `utils.NewClient` was constructed, whether `EventLoop` ran, and
whether a panic from `GetIPInfo` aborted the handler. -/
structure HandlerResult where
  outputs : List String
  exitStatus : Option Nat
  closeCalls : Nat
  unkBranch : Bool
  clientConstructed : Bool
  eventLoopRun : Bool
  panicked : Bool
  deriving DecidableEq, Repr

/-- Embeds `sessionHandler` of `main.go`: the PTY guard, the geo lookup
(whose panic propagates and aborts the handler), its nil check, the
country-blacklist notice (which does not return), the unknown-country
check with its localhost whitelist, and finally `NewClient` +
`EventLoop`. -/
def sessionHandler (isPty : Bool) (remote _username : String)
    (db : GeoReader) (blacklist : List String) : HandlerResult :=
  if !isPty then
    { outputs := ["Err: PTY requires. Reconnect with -t option."]
      exitStatus := some 1
      closeCalls := 0
      unkBranch := false
      clientConstructed := false
      eventLoopRun := false
      panicked := false }
  else
    match GetIPInfo remote db with
    | Except.error _ =>
      { outputs := []
        exitStatus := none
        closeCalls := 0
        unkBranch := false
        clientConstructed := false
        eventLoopRun := false
        panicked := true }
    | Except.ok none =>
      { outputs := ["[system] Your access country is blacklisted. UNK"]
        exitStatus := none
        closeCalls := 1
        unkBranch := true
        clientConstructed := false
        eventLoopRun := false
        panicked := false }
    | Except.ok (some geoStatus) =>
      let black :=
        if blacklist.contains geoStatus.Country then
          ([ "[system] Your access country is blacklisted. " ++
             geoStatus.Country ++ "\n" ], 1)
        else ([], 0)
      let unknown :=
        if geoStatus.Country = "ZZ" then
          if remote.startsWith "127" || remote.startsWith "::1" then
            ([], 0)
          else
            ([ "[system] Unknown country is blacklisted. " ++
               geoStatus.Country ++ "\n" ], 1)
        else ([], 0)
      { outputs := black.1 ++ unknown.1
        exitStatus := none
        closeCalls := black.2 + unknown.2
        unkBranch := false
        clientConstructed := true
        eventLoopRun := true
        panicked := false }

/-- The loop never loses or reorders characters: the flushed lines
followed by the final `currentLine` reassemble `currentLine ++ rest`. -/
lemma calcLoop_join (w : Int) (fuel : Nat) :
    ∀ (rem cur : List Char) (lw : Int) (ls : List (List Char))
      (tl : List Char),
      calcLoop w fuel rem cur lw = some (ls, tl) →
      ls.flatten ++ tl = cur ++ rem := by
  induction fuel with
  | zero =>
    intro rem cur lw ls tl h
    simp only [calcLoop] at h
    split at h
    · next hr =>
      rw [List.isEmpty_iff] at hr
      subst hr
      obtain ⟨rfl, rfl⟩ := by simpa using h
      simp
    · exact absurd h (by simp)
  | succ n ih =>
    intro rem cur lw ls tl h
    match rem with
    | [] =>
      simp only [calcLoop] at h
      obtain ⟨rfl, rfl⟩ := by simpa using h
      simp
    | x :: xs =>
      simp only [calcLoop] at h
      split_ifs at h with h1 h2
      · obtain ⟨rfl, rfl⟩ := by simpa using h
        simp
      · rw [Option.map_eq_some'] at h
        obtain ⟨⟨ls', tl'⟩, hcall, heq⟩ := h
        injection heq with e1 e2
        subst e1
        subst e2
        have hj := ih _ _ _ _ _ hcall
        simp only [List.nil_append] at hj
        simp only [List.flatten_cons, List.append_assoc, hj]
        rw [List.take_append_drop]
      · rw [Option.map_eq_some'] at h
        obtain ⟨⟨ls', tl'⟩, hcall, heq⟩ := h
        injection heq with e1 e2
        subst e1
        subst e2
        have hj := ih _ _ _ _ _ hcall
        simp only [List.nil_append] at hj
        simp only [List.flatten_cons, List.append_assoc, hj]

/-- Line-length bound: if the width is positive, the pending line fits
in the width and the remaining line width is at most the width, every
flushed line and the final line have length at most the width. -/
lemma calcLoop_len (w : Int) (fuel : Nat) :
    ∀ (rem cur : List Char) (lw : Int) (ls : List (List Char))
      (tl : List Char),
      1 ≤ w → (cur.length : Int) ≤ w → lw ≤ w →
      calcLoop w fuel rem cur lw = some (ls, tl) →
      (∀ l ∈ ls, (l.length : Int) ≤ w) ∧ (tl.length : Int) ≤ w := by
  induction fuel with
  | zero =>
    intro rem cur lw ls tl hw hcur hlw h
    simp only [calcLoop] at h
    split at h
    · obtain ⟨rfl, rfl⟩ := by simpa using h
      exact ⟨by simp, hcur⟩
    · exact absurd h (by simp)
  | succ n ih =>
    intro rem cur lw ls tl hw hcur hlw h
    match rem with
    | [] =>
      simp only [calcLoop] at h
      obtain ⟨rfl, rfl⟩ := by simpa using h
      exact ⟨by simp, hcur⟩
    | x :: xs =>
      simp only [calcLoop] at h
      split_ifs at h with h1 h2
      · obtain ⟨rfl, rfl⟩ := by simpa using h
        refine ⟨by simp, ?_⟩
        rw [List.length_append]
        push_cast
        push_cast at h1
        omega
      · rw [Option.map_eq_some'] at h
        obtain ⟨⟨ls', tl'⟩, hcall, heq⟩ := h
        injection heq with e1 e2
        subst e1
        subst e2
        have hrec := ih _ _ _ _ _ hw (by simp; omega) le_rfl hcall
        refine ⟨?_, hrec.2⟩
        intro l hl
        rcases List.mem_cons.mp hl with rfl | hl'
        · rw [List.length_append, List.length_take]
          push_cast
          omega
        · exact hrec.1 l hl'
      · rw [Option.map_eq_some'] at h
        obtain ⟨⟨ls', tl'⟩, hcall, heq⟩ := h
        injection heq with e1 e2
        subst e1
        subst e2
        have hrec := ih _ _ _ _ _ hw (by simp; omega) le_rfl hcall
        refine ⟨?_, hrec.2⟩
        intro l hl
        rcases List.mem_cons.mp hl with rfl | hl'
        · exact hcur
        · exact hrec.1 l hl'

/-- Fuel sufficiency: with a positive width, `2 * |rem| + 2` fuel always
reaches the loop exit (when the pending line is empty its line width is
the full width, so every round either consumes content or flushes a
non-empty pending line and then consumes). -/
lemma calcLoop_isSome (w : Int) (fuel : Nat) :
    ∀ (rem cur : List Char) (lw : Int),
      1 ≤ w → (cur = [] → lw = w) →
      2 * rem.length + (if cur = [] then 1 else 2) ≤ fuel →
      (calcLoop w fuel rem cur lw).isSome = true := by
  induction fuel with
  | zero =>
    intro rem cur lw _ _ hfuel
    split_ifs at hfuel <;> omega
  | succ n ih =>
    intro rem cur lw hw hcur hfuel
    match rem with
    | [] => simp [calcLoop]
    | x :: xs =>
      simp only [calcLoop]
      split_ifs with h1 h2
      · simp
      · rw [Option.isSome_map']
        refine ih _ _ _ hw (fun _ => rfl) ?_
        have hk : 1 ≤ (lw - (cur.length : Int)).toNat := by omega
        rw [List.length_drop, if_pos rfl]
        split_ifs at hfuel <;> omega
      · rw [Option.isSome_map']
        have hcne : cur ≠ [] := by
          intro hc
          have := hcur hc
          subst this
          simp only [hc, List.length_nil, Nat.cast_zero, sub_zero]
            at h2
          omega
        refine ih _ _ _ hw (fun _ => rfl) ?_
        rw [if_neg hcne] at hfuel
        rw [if_pos rfl]
        omega

/-- Divergence: with a non-positive width and non-empty remaining
content, no amount of fuel reaches the loop exit (the flush branch never
advances the content index and resets the line width to `w ≤ 0`). -/
lemma calcLoop_none (w : Int) (fuel : Nat) :
    ∀ (rem cur : List Char) (lw : Int),
      w ≤ 0 → lw ≤ 0 → rem ≠ [] →
      calcLoop w fuel rem cur lw = none := by
  induction fuel with
  | zero =>
    intro rem cur lw _ _ hrem
    simp [calcLoop, List.isEmpty_iff, hrem]
  | succ n ih =>
    intro rem cur lw hw hlw hrem
    match rem with
    | x :: xs =>
      simp only [calcLoop]
      have hsp : lw - (cur.length : Int) ≤ 0 := by
        have : (0 : Int) ≤ cur.length := Int.ofNat_nonneg _
        omega
      rw [if_neg (by simp; omega), if_neg (by omega)]
      rw [ih _ _ _ hw hw (by simp)]
      rfl

/-- No branch of the watcher's `switch` changes `MaxLen`. -/
lemma processRune_maxLen (u : String) (now : Nat) (st : InputState)
    (r : Char) : (processRune u now st r).1.maxLen = st.maxLen := by
  unfold processRune
  split_ifs <;> rfl

/-- Every branch of the watcher's `switch` keeps the buffer within
`MaxLen`: committing clears it, erasing shrinks it, and the append
branch is guarded by `len < MaxLen`. -/
lemma processRune_len (u : String) (now : Nat) (st : InputState)
    (r : Char) (h : st.buffer.length ≤ st.maxLen) :
    (processRune u now st r).1.buffer.length ≤ st.maxLen := by
  unfold processRune
  split_ifs <;>
    simp only [List.length_dropLast, List.length_append,
      List.length_nil, List.length_cons] <;>
    omega

/-- Folding the watcher over any rune sequence keeps the buffer within
the (unchanged) `MaxLen`. -/
lemma processAll_len (u : String) (now : Nat) :
    ∀ (rs : List Char) (st : InputState),
      st.buffer.length ≤ st.maxLen →
      (processAll u now st rs).maxLen = st.maxLen ∧
      (processAll u now st rs).buffer.length ≤ st.maxLen := by
  intro rs
  induction rs with
  | nil => exact fun st h => ⟨rfl, h⟩
  | cons r rs ih =>
    intro st h
    have h1 := processRune_maxLen u now st r
    have h2 := processRune_len u now st r h
    have := ih (processRune u now st r).1 (by omega)
    simp only [processAll]
    omega

/-- On a rune that reaches the `default` append branch, the watcher
appends below capacity (and requests a render) and drops at capacity
(requesting nothing). -/
lemma processRune_printable (u : String) (now : Nat) (st : InputState)
    (r : Char) (hp : isPrintable r = true) :
    processRune u now st r =
      if st.buffer.length < st.maxLen then
        ({ st with buffer := st.buffer ++ [r] }, [Effect.renderReq])
      else (st, []) := by
  simp only [isPrintable, decide_eq_true_eq] at hp
  obtain ⟨hspec, hctl⟩ := hp
  unfold processRune
  rw [if_neg (by tauto), if_neg (by tauto), if_neg (by tauto),
    if_neg (by omega)]

/-- `Timer.Reset` chain: while a timer with deadline `prev + d` is
pending and every next request arrives before the pending deadline, the
runs ends with exactly one delivery, `d` after the last request. -/
lemma debounceRun_pending (d : Nat) :
    ∀ (ts : List Nat) (prev : Nat),
      List.Chain (fun a b => b < a + d) prev ts →
      debounceRun d ts (some (prev + d)) = [ts.getLastD prev + d] := by
  intro ts
  induction ts with
  | nil => intro prev _; rfl
  | cons t ts ih =>
    intro prev hch
    cases hch with
    | cons hlt hch' =>
      simp only [debounceRun]
      rw [if_neg (by omega), ih t hch', List.getLastD_cons]

/-- After `emitClose` the shared `sync.Once` is always consumed. -/
lemma emitClose_onceUsed (st : CloseState) :
    (emitClose st).onceUsed = true := by
  unfold emitClose onceDo
  split_ifs with h
  · exact h
  · rfl

/-- `Client.Close` is observationally `emitClose`: its own
`once.Do(close channels)` always finds the shared `Once` consumed. -/
lemma clientClose_eq_emitClose (st : CloseState) :
    clientClose st = emitClose st := by
  unfold clientClose onceDo
  rw [if_pos (emitClose_onceUsed st)]

lemma emitClose_channelCount (st : CloseState) :
    (emitClose st).channelCloseCount = st.channelCloseCount := by
  unfold emitClose onceDo
  split_ifs <;> rfl

/-- No trigger sequence ever runs the channel-closing block. -/
lemma runTriggers_channelCount (ts : List CloseTrigger) :
    ∀ st : CloseState,
      (runTriggers st ts).channelCloseCount = st.channelCloseCount := by
  induction ts with
  | nil => intro st; rfl
  | cons t ts ih =>
    intro st
    cases t <;>
      simp only [runTriggers, ih, clientClose_eq_emitClose,
        emitClose_channelCount]

/-- With a non-positive width and non-empty content the wrap function
never returns, whatever the fuel. -/
lemma calculateMessageLines_none (header content : List Char) (w : Int)
    (fuel : Nat) (hw : w ≤ 0) (hc : content ≠ []) :
    calculateMessageLines header content w fuel = none := by
  have hlw : (if header.length > 0 then w - (header.length : Int)
      else w) ≤ 0 := by
    split_ifs with h
    · have : (0 : Int) ≤ header.length := Int.ofNat_nonneg _
      omega
    · exact hw
  simp only [calculateMessageLines]
  rw [calcLoop_none w fuel content header _ hw hlw hc]
  rfl

/-- C1: the claim says every signal channel is closed exactly once; in
the code `Client.Close` first calls `emitClose`, which consumes the
shared `sync.Once`, so the subsequent `once.Do` holding the four
`close(...)` calls is a no-op: one `Close()` invocation closes the
transport exactly once but closes the channels zero times, and no
sequence of close-path triggers ever closes them. -/
theorem close_channels_never_closed :
    (clientClose initCloseState).sessionCloseCount = 1 ∧
    (clientClose initCloseState).channelCloseCount = 0 ∧
    ∀ ts : List CloseTrigger,
      (runTriggers initCloseState ts).channelCloseCount = 0 := by
  refine ⟨rfl, rfl, fun ts => ?_⟩
  exact (runTriggers_channelCount ts initCloseState).trans rfl

/-- C2: at the claim's own example (width 20, header of 15 runes,
content of 18 runes) the code puts the header alone on the first line
(15 < 20 characters, because `lineWidth` already subtracted the header
and `spaceLeft` subtracts `currentLine` again) and the whole content on
the second, instead of filling the first line to the 20-character
boundary with the header plus "hello". -/
theorem wrap_example_first_line_not_filled :
    calculateMessageLines "[12:00:00 bob] ".toList
        "hello world foobar".toList 20 8 =
      some ["[12:00:00 bob] ".toList, "hello world foobar".toList] ∧
    "[12:00:00 bob] ".toList.length = 15 ∧
    "[12:00:00 bob] ".toList ≠ "[12:00:00 bob] hello".toList := by
  refine ⟨rfl, rfl, by decide⟩

/-- C3: the claim says the wrap function terminates on every input,
including zero width; in the code a non-positive width with non-empty
content never lets `contentIdx` advance (the flush branch resets
`lineWidth` to `w ≤ 0`), so the loop runs forever: the fuel-indexed
embedding returns `none` for every fuel at width 0 with a one-rune
message. -/
theorem wrap_zero_width_diverges :
    ∀ fuel : Nat,
      calculateMessageLines "[a] ".toList "x".toList 0 fuel = none :=
  fun fuel =>
    calculateMessageLines_none _ _ _ fuel (by norm_num) (by decide)

/-- C4 counterexample: header "abcde", content "x", width 4: the
header+content length 6 exceeds the width, yet the produced first line
is the unsplit 5-rune header, longer than the width. -/
theorem wrap_overlong_header_line :
    ∃ res, calculateMessageLines "abcde".toList "x".toList 4 4 =
        some res ∧ ¬(∀ l ∈ res, (l.length : Int) ≤ 4) := by
  exact ⟨["abcde".toList, "x".toList], rfl, by decide⟩

/-- C4 amended: for every width ≥ 1 and every header whose length is at
most the width, the wrap function terminates (2·|content|+2 fuel
suffices), every produced line has length at most the width, and the
concatenation of the lines is exactly header ++ content. -/
theorem wrap_lines_bounded_and_reassemble (header content : List Char)
    (w : Int) (h1 : 1 ≤ w) (h2 : (header.length : Int) ≤ w) :
    ∃ res, calculateMessageLines header content w
        (2 * content.length + 2) = some res ∧
      (∀ l ∈ res, (l.length : Int) ≤ w) ∧
      res.flatten = header ++ content := by
  have hcur : header = ([] : List Char) →
      (if header.length > 0 then w - (header.length : Int) else w)
        = w := by
    intro hh
    subst hh
    simp
  have hfuel : 2 * content.length +
      (if header = ([] : List Char) then 1 else 2) ≤
      2 * content.length + 2 := by
    split_ifs <;> omega
  have hsome := calcLoop_isSome w (2 * content.length + 2) content
    header (if header.length > 0 then w - (header.length : Int) else w)
    h1 hcur hfuel
  obtain ⟨⟨ls, tl⟩, hp⟩ := Option.isSome_iff_exists.mp hsome
  have hlw : (if header.length > 0 then w - (header.length : Int)
      else w) ≤ w := by
    split_ifs with h
    · have : (0 : Int) ≤ header.length := Int.ofNat_nonneg _
      omega
    · exact le_rfl
  obtain ⟨hls, htl⟩ := calcLoop_len w _ content header _ ls tl h1 h2
    hlw hp
  have hjoin := calcLoop_join w _ content header _ ls tl hp
  refine ⟨ls ++ if tl.isEmpty then [] else [tl], ?_, ?_, ?_⟩
  · simp only [calculateMessageLines, hp, Option.map_some']
  · intro l hl
    rcases List.mem_append.mp hl with h | h
    · exact hls l h
    · split_ifs at h with ht
      · simp at h
      · rw [List.mem_singleton.mp h]
        exact htl
  · by_cases ht : tl.isEmpty
    · rw [List.isEmpty_iff] at ht
      subst ht
      simpa using hjoin
    · rw [if_neg (by simpa using ht)]
      simp only [List.flatten_append, List.flatten_cons,
        List.flatten_nil, List.append_nil]
      exact hjoin

/-- Witness for the amended C4 theorem at width 3, header "ab",
content "cdef". -/
theorem wrap_lines_bounded_and_reassemble_witness :
    (1 : Int) ≤ 3 ∧ (("ab".toList.length : Nat) : Int) ≤ 3 ∧
    ∃ res, calculateMessageLines "ab".toList "cdef".toList 3
        (2 * "cdef".toList.length + 2) = some res ∧
      (∀ l ∈ res, (l.length : Int) ≤ 3) ∧
      res.flatten = "ab".toList ++ "cdef".toList :=
  ⟨by norm_num, by decide,
    wrap_lines_bounded_and_reassemble "ab".toList "cdef".toList 3
      (by norm_num) (by decide)⟩

/-- C5: over any sequence of printable runes the buffer never exceeds
`MaxLen`; a printable rune below capacity is appended with a render
request, one at capacity is silently dropped with no request and no
state change; and feeding a,b,c,d,e at `MaxLen` 4 leaves "abcd". -/
theorem buffer_never_exceeds_maxLen (u : String) (now : Nat)
    (st : InputState) (rs : List Char) (r : Char)
    (_hrs : ∀ x ∈ rs, isPrintable x = true)
    (hr : isPrintable r = true)
    (hlen : st.buffer.length ≤ st.maxLen) :
    (processAll u now st rs).buffer.length ≤ st.maxLen ∧
    (st.buffer.length < st.maxLen →
      processRune u now st r =
        ({ st with buffer := st.buffer ++ [r] },
         [Effect.renderReq])) ∧
    (¬st.buffer.length < st.maxLen →
      processRune u now st r = (st, [])) ∧
    processAll u now ⟨[], 4, []⟩ "abcde".toList =
      ⟨"abcd".toList, 4, []⟩ := by
  refine ⟨(processAll_len u now rs st hlen).2, ?_, ?_, rfl⟩
  · intro hlt
    rw [processRune_printable u now st r hr, if_pos hlt]
  · intro hge
    rw [processRune_printable u now st r hr, if_neg hge]

/-- C5 witness at buffer "ab", `MaxLen` 4, inputs "abc" and 'z'. -/
theorem buffer_never_exceeds_maxLen_witness :
    (∀ x ∈ "abc".toList, isPrintable x = true) ∧
    isPrintable 'z' = true ∧
    "ab".toList.length ≤ 4 ∧
    ((processAll "bob" 0 ⟨"ab".toList, 4, []⟩
        "abc".toList).buffer.length ≤ 4 ∧
     ("ab".toList.length < 4 →
       processRune "bob" 0 ⟨"ab".toList, 4, []⟩ 'z' =
         (⟨"ab".toList ++ ['z'], 4, []⟩, [Effect.renderReq])) ∧
     (¬"ab".toList.length < 4 →
       processRune "bob" 0 ⟨"ab".toList, 4, []⟩ 'z' =
         (⟨"ab".toList, 4, []⟩, [])) ∧
     processAll "bob" 0 ⟨[], 4, []⟩ "abcde".toList =
       ⟨"abcd".toList, 4, []⟩) :=
  ⟨by decide, by decide, by decide,
    buffer_never_exceeds_maxLen "bob" 0 ⟨"ab".toList, 4, []⟩
      "abc".toList 'z' (by decide) (by decide) (by decide)⟩

/-- C6: a CR or LF with a non-empty buffer appends exactly one message
carrying the buffer contents, the session username and the current
time, and clears the buffer; with an empty buffer the state (and in
particular the message log) is unchanged. -/
theorem enter_commits_buffer (u : String) (now : Nat)
    (st : InputState) (r : Char) (hr : r.toNat = 13 ∨ r.toNat = 10) :
    (st.buffer ≠ [] →
      processRune u now st r =
        ({ st with
            messages := st.messages ++ [⟨now, u, st.buffer⟩]
            buffer := [] },
         [Effect.enterSig, Effect.renderReq])) ∧
    (st.buffer = [] →
      processRune u now st r =
        (st, [Effect.enterSig, Effect.renderReq])) := by
  constructor
  · intro hne
    unfold processRune
    rw [if_pos hr, if_pos (List.length_pos.mpr hne)]
  · intro he
    unfold processRune
    rw [if_pos hr, if_neg (by simp [he])]

/-- C6 witness: committing buffer "hi" as user "bob" at time 7, and a
commit on an empty buffer. -/
theorem enter_commits_buffer_witness :
    (('\r' : Char).toNat = 13 ∨ ('\r' : Char).toNat = 10) ∧
    (("hi".toList ≠ ([] : List Char) →
      processRune "bob" 7 ⟨"hi".toList, 128, []⟩ '\r' =
        (⟨[], 128, [⟨7, "bob", "hi".toList⟩]⟩,
         [Effect.enterSig, Effect.renderReq])) ∧
     ("hi".toList = ([] : List Char) →
      processRune "bob" 7 ⟨"hi".toList, 128, []⟩ '\r' =
        (⟨"hi".toList, 128, []⟩,
         [Effect.enterSig, Effect.renderReq]))) :=
  ⟨by decide,
    enter_commits_buffer "bob" 7 ⟨"hi".toList, 128, []⟩ '\r'
      (by decide)⟩

/-- C7: a burst of requests, each issued strictly less than one
debounce interval (50) after the previous one, delivers exactly one
render signal, one debounce interval after the last request: the first
request schedules the timer and every later one resets it. -/
theorem render_requests_debounced (t0 : Nat) (ts : List Nat)
    (hch : List.Chain (fun a b => b < a + renderDebounceDur) t0 ts) :
    debounceRun renderDebounceDur (t0 :: ts) none =
      [ts.getLastD t0 + renderDebounceDur] := by
  simp only [debounceRun]
  exact debounceRun_pending renderDebounceDur ts t0 hch

/-- C7 witness: requests at times 0, 10, 20 produce the single render
delivery at time 70. -/
theorem render_requests_debounced_witness :
    List.Chain (fun a b => b < a + renderDebounceDur) 0 [10, 20] ∧
    debounceRun renderDebounceDur [0, 10, 20] none = [70] := by
  have hch : List.Chain (fun a b => b < a + renderDebounceDur)
      0 [10, 20] :=
    List.Chain.cons (by norm_num [renderDebounceDur])
      (List.Chain.cons (by norm_num [renderDebounceDur])
        List.Chain.nil)
  exact ⟨hch, render_requests_debounced 0 [10, 20] hch⟩

/-- C8: without a negotiated PTY the handler writes the one-line error,
exits with the non-zero status 1, and returns with neither the Client
constructed nor the event loop run. -/
theorem no_pty_rejected_before_client (remote username : String)
    (db : GeoReader) (blacklist : List String) :
    sessionHandler false remote username db blacklist =
      { outputs := ["Err: PTY requires. Reconnect with -t option."]
        exitStatus := some 1
        closeCalls := 0
        unkBranch := false
        clientConstructed := false
        eventLoopRun := false
        panicked := false } ∧
    ∃ n, (sessionHandler false remote username db
        blacklist).exitStatus = some n ∧ n ≠ 0 :=
  ⟨rfl, 1, rfl, one_ne_zero⟩

/-- C9 counterexample: a reader whose country lookup yields no record
(a non-country MaxMind database), even with the city, ISP and
anonymous-IP lookups all succeeding: `GetIPInfo` panics at the
pre-nil-check dereference in `println(country.Country.IsoCode)` and
does not return any `IpInfo`, nil or not. -/
theorem getipinfo_panics_on_nil_country :
    GetIPInfo "203.0.113.7"
      ⟨none, some ("Seoul", "Asia/Seoul"), some "ExampleNet",
        some (false, false, false)⟩ = Except.error () := rfl

/-- C9 amended: `GetIPInfo` never returns a nil `IpInfo`: whenever it
returns at all, the result is a non-nil record (with the
empty-IsoCode "ZZ" and nil-city/ISP/anonymous "Unknown"/"UTC+0"/false
fallbacks); when the country lookup yields no record it panics at the
pre-nil-check dereference instead of returning.  Consequently the
`geoStatus == nil` force-disconnect branch of `sessionHandler` is never
taken, for any reader. -/
theorem getipinfo_never_nil_pointer (ip remote username : String)
    (db db2 db3 : GeoReader) (isPty : Bool) (blacklist : List String)
    (p : Option IpInfo) (hp : GetIPInfo ip db = Except.ok p)
    (h3 : db3.countryIso = none) :
    p.isSome = true ∧
    GetIPInfo ip db3 = Except.error () ∧
    GetIPInfo ip ⟨some "", none, none, none⟩ =
      Except.ok (some ⟨"ZZ", "Unknown", "UTC+0", "Unknown", false⟩) ∧
    (sessionHandler isPty remote username db2 blacklist).unkBranch =
      false := by
  refine ⟨?_, ?_, rfl, ?_⟩
  · rcases hc : db.countryIso with _ | iso
    · simp only [GetIPInfo, hc] at hp
      exact Except.noConfusion hp
    · simp only [GetIPInfo, hc] at hp
      injection hp with h
      subst h
      rfl
  · simp only [GetIPInfo, h3]
  · obtain ⟨ciso, cc, ci, ca⟩ := db2
    cases isPty <;> cases ciso <;> rfl

/-- C9 witness: a reader with a country record "US" (other lookups
nil), the all-nil reader for the panic conjunct, and a concrete handler
run. -/
theorem getipinfo_never_nil_pointer_witness :
    GetIPInfo "8.8.8.8" ⟨some "US", none, none, none⟩ =
      Except.ok (some ⟨"US", "Unknown", "UTC+0", "Unknown", false⟩) ∧
    (⟨none, none, none, none⟩ : GeoReader).countryIso = none ∧
    ((some (⟨"US", "Unknown", "UTC+0", "Unknown", false⟩ : IpInfo) :
        Option IpInfo).isSome = true ∧
     GetIPInfo "8.8.8.8" ⟨none, none, none, none⟩ =
       Except.error () ∧
     GetIPInfo "8.8.8.8" ⟨some "", none, none, none⟩ =
       Except.ok (some ⟨"ZZ", "Unknown", "UTC+0", "Unknown", false⟩) ∧
     (sessionHandler true "8.8.8.8" "bob"
        ⟨some "US", none, none, none⟩ []).unkBranch = false) :=
  ⟨rfl, rfl,
    getipinfo_never_nil_pointer "8.8.8.8" "8.8.8.8" "bob"
      ⟨some "US", none, none, none⟩ ⟨some "US", none, none, none⟩
      ⟨none, none, none, none⟩ true []
      (some ⟨"US", "Unknown", "UTC+0", "Unknown", false⟩) rfl rfl⟩

/-- C10: a blacklisted country (outside the localhost-whitelisted ZZ
case) gets the notice written and the session closed, but the handler
does not return: it still constructs the Client and runs its event
loop. -/
theorem blacklisted_country_still_runs_loop (remote username : String)
    (db : GeoReader) (blacklist : List String) (info : IpInfo)
    (hinfo : GetIPInfo remote db = Except.ok (some info))
    (hbl : blacklist.contains info.Country = true)
    (_hloc : ¬(info.Country = "ZZ" ∧ (remote.startsWith "127" ∨
      remote.startsWith "::1"))) :
    ("[system] Your access country is blacklisted. " ++ info.Country
        ++ "\n") ∈
      (sessionHandler true remote username db blacklist).outputs ∧
    1 ≤ (sessionHandler true remote username db
        blacklist).closeCalls ∧
    (sessionHandler true remote username db
        blacklist).clientConstructed = true ∧
    (sessionHandler true remote username db
        blacklist).eventLoopRun = true := by
  unfold sessionHandler
  rw [hinfo]
  simp only [Bool.not_true, Bool.false_eq_true, if_false]
  rw [if_pos hbl]
  refine ⟨?_, ?_, trivial, trivial⟩
  · exact List.mem_append_left _ (List.mem_singleton.mpr rfl)
  · exact Nat.le_add_right 1 _

/-- C10 witness: a connection from "1.2.3.4" resolved to country "KP"
with blacklist ["KP"]. -/
theorem blacklisted_country_still_runs_loop_witness :
    GetIPInfo "1.2.3.4" ⟨some "KP", none, none, none⟩ =
      Except.ok (some ⟨"KP", "Unknown", "UTC+0", "Unknown", false⟩) ∧
    (["KP"] : List String).contains
      (⟨"KP", "Unknown", "UTC+0", "Unknown", false⟩ : IpInfo).Country
      = true ∧
    ¬((⟨"KP", "Unknown", "UTC+0", "Unknown", false⟩ :
        IpInfo).Country = "ZZ" ∧
      ("1.2.3.4".startsWith "127" ∨ "1.2.3.4".startsWith "::1")) ∧
    (("[system] Your access country is blacklisted. " ++
        (⟨"KP", "Unknown", "UTC+0", "Unknown", false⟩ :
          IpInfo).Country ++ "\n") ∈
      (sessionHandler true "1.2.3.4" "bob"
        ⟨some "KP", none, none, none⟩ ["KP"]).outputs ∧
     1 ≤ (sessionHandler true "1.2.3.4" "bob"
        ⟨some "KP", none, none, none⟩ ["KP"]).closeCalls ∧
     (sessionHandler true "1.2.3.4" "bob"
        ⟨some "KP", none, none, none⟩ ["KP"]).clientConstructed =
       true ∧
     (sessionHandler true "1.2.3.4" "bob"
        ⟨some "KP", none, none, none⟩ ["KP"]).eventLoopRun = true) :=
  ⟨rfl, by decide, by decide,
    blacklisted_country_still_runs_loop "1.2.3.4" "bob"
      ⟨some "KP", none, none, none⟩ ["KP"]
      ⟨"KP", "Unknown", "UTC+0", "Unknown", false⟩
      rfl (by decide) (by decide)⟩

end SshChat
